import Mathlib

/-!
# echo-http: the request handler of `main.go` and the handler inlined in `main_test.go`

A shallow embedding of the closure registered by `http.HandleFunc("/", ...)` in
`main` (main.go, lines 20-74) and of the closure built inside `TestEchoHandler`
(main_test.go, lines 82-131), followed by theorems about them.

Go strings are byte sequences; `len` counts bytes. The calls into the Go
standard library (`os.Getenv`, `strconv.Atoi`, `sort.Strings`, `strings.Join`,
`strings.Repeat`, `http.ResponseWriter.WriteHeader`) are embedded by their
documented behaviour on a platform whose `int` has 64 bits.

The padding is the one allocation whose size the configuration chooses freely, so
`strings.Repeat` is embedded with its failures: the panics of its own checks, the panic
of the runtime on a length above its allocation limit, and the death of the process when
the memory is not there. What memory the process has is a parameter, `Memory`.
-/

set_option maxRecDepth 10000

namespace EchoHttp

/-! ## Strings -/

/-- One byte of a Go string (a value below 256). -/
abbrev Byte := Nat

/-- A Go `string` or `[]byte`: a sequence of bytes. -/
abbrev GoString := List Byte

/-- The bytes of a string literal of the source; every literal of the handler is ASCII,
where the code point of a character is its single byte. -/
def lit (s : String) : GoString := s.data.map Char.toNat

/-- Go's `<` on strings: bytewise lexicographic comparison, a proper prefix being smaller. -/
def strLess : GoString → GoString → Bool
  | [], [] => false
  | [], _ :: _ => true
  | _ :: _, [] => false
  | a :: as, b :: bs => if a < b then true else if b < a then false else strLess as bs

/-- The order `sort.Strings` sorts by: `a` may stand before `b` when `b < a` is false. -/
def strLE (a b : GoString) : Prop := strLess b a = false

instance : DecidableRel strLE := fun a b => inferInstanceAs (Decidable (strLess b a = false))

/-- `sort.Strings(keys)`: the keys in ascending order. The result of sorting strings by a
total order is the same list whatever the algorithm, since equal strings are
indistinguishable. -/
def sortStrings (keys : List GoString) : List GoString := keys.insertionSort strLE

/-- `strings.Join(v, sep)`. -/
def Join : List GoString → GoString → GoString
  | [], _ => []
  | [a], _ => a
  | a :: b :: rest, sep => a ++ sep ++ Join (b :: rest) sep

/-- The largest `int` (64 bits). -/
def maxInt : Int := 2 ^ 63 - 1

/-- The allocation limit of the Go runtime (`maxAlloc`, `1 << 48` bytes on 64-bit linux,
darwin and windows): `make` panics with `len out of range` on a longer slice. -/
def maxAlloc : Int := 2 ^ 48

/-- The memory of the process: `mem n` tells whether the process has the memory that a
padding of `n` bytes (at most `maxAlloc`) takes, the repeated string and the copies of the
response that hold it. When it has not, the process dies with
`fatal error: out of memory`. -/
abbrev Memory := Nat → Bool

/-- `strings.Repeat(s, count)`; `none` is a run that does not return: the panic on a
negative count, the panic on a result longer than the largest `int`, the panic of the
allocation (`makeslice: len out of range`) on a result longer than `maxAlloc`, or the
death of the process when the memory for the result is not there. A count of 0 or 1
returns the empty string or `s` itself and allocates nothing. -/
def Repeat (mem : Memory) (s : GoString) (count : Int) : Option GoString :=
  if count = 0 then some []
  else if count = 1 then some s
  else if count < 0 then none
  else if (s.length : Int) * count > maxInt then none
  else if s.length = 0 then some []
  else if (s.length : Int) * count > maxAlloc then none
  else if mem ((s.length : Int) * count).toNat = true then
    some (List.replicate count.toNat s).flatten
  else none

/-! ## strconv.Atoi -/

/-- The digit loop of `strconv.Atoi` / `strconv.ParseUint` in base 10: `none` on a byte
that is not a decimal digit. -/
def parseDigits : GoString → Nat → Option Nat
  | [], n => some n
  | c :: cs, n => if 48 ≤ c ∧ c ≤ 57 then parseDigits cs (n * 10 + (c - 48)) else none

/-- `strconv.Atoi(s)`: `some n` when the returned error is nil. The accepted strings are an
optional sign `+` or `-` followed by one or more decimal digits, whose value fits an
`int`; anything else is a syntax or range error. -/
def Atoi (s : GoString) : Option Int :=
  match s with
  | [] => none
  | c :: rest =>
    let ds := if c = 45 ∨ c = 43 then rest else s
    if ds = [] then none
    else
      match parseDigits ds 0 with
      | none => none
      | some n =>
        if c = 45 then (if n ≤ 2 ^ 63 then some (-(n : Int)) else none)
        else (if n < 2 ^ 63 then some (n : Int) else none)

/-- Reduction of an integer to the `int64` range, as Go's wrapping arithmetic does. -/
def wrapInt64 (x : Int) : Int := (x + 2 ^ 63) % 2 ^ 64 - 2 ^ 63

/-- `time.Millisecond`, in nanoseconds. -/
def Millisecond : Int := 1000000

/-! ## Request, environment, outcome -/

/-- What the handler reads of `*http.Request`: `r.Method`, `r.URL.Path`, `r.Header` (a
`map[string][]string`, given as its entries in the order a `range` visits them; the keys
of a map are distinct) and the bytes `io.ReadAll(r.Body)` returns. -/
structure Request where
  Method : GoString
  Path : GoString
  Header : List (GoString × List GoString)
  Body : GoString
deriving DecidableEq

/-- The three environment variables the handler reads; `none` is an unset variable. -/
structure Env where
  DELAY : Option GoString
  STATUS_CODE : Option GoString
  RESPONSE_SIZE : Option GoString
deriving DecidableEq

/-- `os.Getenv`: the value of the variable, the empty string when it is unset. -/
def Getenv (v : Option GoString) : GoString := v.getD []

/-- What one run of a handler does: the duration passed to `time.Sleep` (nanoseconds;
`none` when `time.Sleep` is not called), the status passed to `w.WriteHeader`, and the
bytes passed to `w.Write` (`none` when the handler did not get to write: a panic, or the
death of the process). -/
structure Outcome where
  slept : Option Int
  status : Int
  written : Option GoString
deriving DecidableEq

/-- `w.WriteHeader(code)` of net/http (and of httptest's recorder): `checkWriteHeaderCode`
panics on a code below 100 or above 999; `none` is that panic. -/
def WriteHeader (code : Int) : Option Unit :=
  if code < 100 ∨ code > 999 then none else some ()

/-! ## The handler of `main` -/

/-- main.go 24-28: the argument of `time.Sleep`, `time.Duration(ms) * time.Millisecond`. -/
def sleepArg (env : Env) : Option Int :=
  let delay := Getenv env.DELAY
  if delay ≠ [] then
    match Atoi delay with
    | some ms => some (wrapInt64 (wrapInt64 ms * Millisecond))
    | none => none
  else none

/-- main.go 31-36: the status passed to `w.WriteHeader`. -/
def statusArg (env : Env) : Int :=
  let status := 200
  let s := Getenv env.STATUS_CODE
  if s ≠ [] then
    match Atoi s with
    | some code => code
    | none => status
  else status

/-- `r.Header[k]`: the values stored under `k`, nil when the key is absent. -/
def mapIndex : List (GoString × List GoString) → GoString → List GoString
  | [], _ => []
  | (k', v) :: rest, k => if k' = k then v else mapIndex rest k

/-- `fmt.Sprintf("%s: %s\n", k, strings.Join(v, ", "))`. -/
def headerLine (k : GoString) (v : List GoString) : GoString :=
  k ++ lit ": " ++ Join v (lit ", ") ++ lit "\n"

/-- main.go 47-51: the keys of the header map, collected by `range` and sorted. -/
def sortedKeys (H : List (GoString × List GoString)) : List GoString :=
  let keys := H.foldl (fun keys e => keys ++ [e.1]) []
  sortStrings keys

/-- main.go 52-55: the header lines, as the loop over the sorted keys writes them. -/
def headerBlock (H : List (GoString × List GoString)) : GoString :=
  (sortedKeys H).foldl (fun response k => response ++ headerLine k (mapIndex H k)) []

/-- main.go 43-56: the builder after the method, path and header lines are written. -/
def renderHead (r : Request) : GoString :=
  let response : GoString := []
  let response := response ++ (lit "Method: " ++ r.Method ++ lit "\n\n")
  let response := response ++ (lit "Path: " ++ r.Path ++ lit "\n\n")
  let response := response ++ lit "Headers:\n"
  let response :=
    (sortedKeys r.Header).foldl (fun response k => response ++ headerLine k (mapIndex r.Header k))
      response
  response ++ lit "\n"

/-- main.go 43-59: the builder before padding. -/
def render (r : Request) : GoString :=
  let response := renderHead r
  if r.Body.length > 0 then response ++ (lit "Body: " ++ r.Body ++ lit "\n") else response

/-- main.go 62-67: padding up to `RESPONSE_SIZE`; `none` when `strings.Repeat` does not
return. -/
def padStep (mem : Memory) (env : Env) (response : GoString) : Option GoString :=
  let sizeStr := Getenv env.RESPONSE_SIZE
  if sizeStr ≠ [] then
    match Atoi sizeStr with
    | some size =>
      if size > (response.length : Int) then
        match Repeat mem (lit "x") (size - (response.length : Int)) with
        | some padding => some (response ++ padding)
        | none => none
      else some response
    | none => some response
  else some response

/-- main.go 20-70: the handler registered by `main`. The log line it prints afterwards is
not part of the response. -/
def handler (mem : Memory) (env : Env) (r : Request) : Outcome :=
  let slept := sleepArg env
  let status := statusArg env
  match WriteHeader status with
  | none => { slept := slept, status := status, written := none }
  | some _ =>
    let response := render r
    { slept := slept, status := status, written := padStep mem env response }

/-! ## The handler inlined in `TestEchoHandler` -/

/-- main_test.go 86-90: the argument of `time.Sleep`, the result of
`time.ParseDuration(delay)`. `ParseDuration` is the library function, `some d` when its
error is nil. -/
def testSleepArg (ParseDuration : GoString → Option Int) (env : Env) : Option Int :=
  let delay := Getenv env.DELAY
  if delay ≠ [] then
    match ParseDuration delay with
    | some d => some d
    | none => none
  else none

/-- main_test.go 105-115: the builder before padding; the header lines are written in the
order `range r.Header` visits the map. -/
def testRender (r : Request) : GoString :=
  let response : GoString := []
  let response := response ++ (lit "Method: " ++ r.Method ++ lit "\n\n")
  let response := response ++ (lit "Path: " ++ r.Path ++ lit "\n\n")
  let response := response ++ lit "Headers:\n"
  let response := r.Header.foldl (fun response e => response ++ headerLine e.1 e.2) response
  let response := response ++ lit "\n"
  if r.Body.length > 0 then response ++ (lit "Body: " ++ r.Body ++ lit "\n") else response

/-- main_test.go 82-125: the handler built inside `TestEchoHandler`. -/
def testHandler (ParseDuration : GoString → Option Int) (mem : Memory) (env : Env)
    (r : Request) : Outcome :=
  let slept := testSleepArg ParseDuration env
  let status := statusArg env
  match WriteHeader status with
  | none => { slept := slept, status := status, written := none }
  | some _ =>
    let response := testRender r
    { slept := slept, status := status, written := padStep mem env response }

/-! ## Notions used to state the properties -/

/-- The lines of a text: the pieces between newline bytes, as `strings.Split(s, "\n")`. -/
def splitLines : GoString → List GoString
  | [] => [[]]
  | c :: cs =>
    if c = 10 then [] :: splitLines cs
    else (c :: (splitLines cs).headD []) :: (splitLines cs).tail

/-- The lines of a text that begin with `Body:`. -/
def bodyLines (s : GoString) : List GoString :=
  (splitLines s).filter fun l => (lit "Body:").isPrefixOf l

/-- The number of `x` bytes the padding step asks `strings.Repeat` for (0 when it asks for
none). -/
def padCount (env : Env) (response : GoString) : Nat :=
  match Atoi (Getenv env.RESPONSE_SIZE) with
  | some size => (size - (response.length : Int)).toNat
  | none => 0

/-- The entries of the header map in the order the handler writes their lines. -/
def sortedEntries (H : List (GoString × List GoString)) : List (GoString × List GoString) :=
  (sortedKeys H).map fun k => (k, mapIndex H k)

/-- The response text as the specification words it: method, path, header block, blank
line, and the body block when the body is not empty. -/
def specBody (r : Request) : GoString :=
  lit "Method: " ++ r.Method ++ lit "\n\n" ++ (lit "Path: " ++ r.Path ++ lit "\n\n")
    ++ lit "Headers:\n" ++ headerBlock r.Header ++ lit "\n"
    ++ (if r.Body ≠ [] then lit "Body: " ++ r.Body ++ lit "\n" else [])

/-- `GET /test` with header `User-Agent: test` and no body. -/
def reqGetTest : Request :=
  { Method := lit "GET", Path := lit "/test", Header := [(lit "User-Agent", [lit "test"])],
    Body := [] }

/-- `POST /api` with header `Content-Type: application/json` and a JSON body. -/
def reqPostApi : Request :=
  { Method := lit "POST", Path := lit "/api",
    Header := [(lit "Content-Type", [lit "application/json"])],
    Body := lit "\x7b\"key\": \"value\"\x7d" }

/-- `GET /` with no header and no body. -/
def reqGetRoot : Request := { Method := lit "GET", Path := lit "/", Header := [], Body := [] }

/-- `GET /` with headers `B: 1, 2` and `A: 3`, visited by `range` in that order, no body. -/
def reqTwoHeaders : Request :=
  { Method := lit "GET", Path := lit "/",
    Header := [(lit "B", [lit "1", lit "2"]), (lit "A", [lit "3"])], Body := [] }

/-- `GET /` with the single header `Body: x` and no body. -/
def reqBodyHeader : Request :=
  { Method := lit "GET", Path := lit "/", Header := [(lit "Body", [lit "x"])], Body := [] }

/-- `POST /` with no header and the two-line body `a`, `Body: b`. -/
def reqTwoLineBody : Request :=
  { Method := lit "POST", Path := lit "/", Header := [], Body := lit "a\nBody: b" }

/-- `POST /` with no header and the body `hello`. -/
def reqHello : Request := { Method := lit "POST", Path := lit "/", Header := [], Body := lit "hello" }

/-- A process that has the memory for a padding of up to one GiB. -/
def oneGiB : Memory := fun n => decide (n ≤ 2 ^ 30)

/-- The environment with no variable set. -/
def noEnv : Env := { DELAY := none, STATUS_CODE := none, RESPONSE_SIZE := none }

/-! ## Auxiliary lemmas -/

theorem foldl_append_flatten {α : Type} (f : α → GoString) (l : List α) (init : GoString) :
    l.foldl (fun acc x => acc ++ f x) init = init ++ (l.map f).flatten := by
  induction l generalizing init with
  | nil => simp
  | cons a l ih => simp [ih, List.append_assoc]

theorem foldl_keys (H : List (GoString × List GoString)) (init : List GoString) :
    H.foldl (fun keys e => keys ++ [e.1]) init = init ++ H.map Prod.fst := by
  induction H generalizing init with
  | nil => simp
  | cons a l ih => simp [ih, List.append_assoc]

theorem sortedKeys_eq (H : List (GoString × List GoString)) :
    sortedKeys H = sortStrings (H.map Prod.fst) := by
  simp [sortedKeys, foldl_keys]

theorem Atoi_range {s : GoString} {n : Int} (h : Atoi s = some n) :
    -(2 ^ 63) ≤ n ∧ n ≤ maxInt := by
  cases s with
  | nil => simp [Atoi] at h
  | cons c rest =>
    simp only [Atoi] at h
    repeat' split at h
    all_goals (try simp at h)
    all_goals (unfold maxInt; omega)

theorem Atoi_nil : Atoi [] = none := rfl

theorem replicate_singleton_flatten (n : Nat) (c : Byte) :
    (List.replicate n [c]).flatten = List.replicate n c := by
  induction n with
  | zero => rfl
  | succ n ih => simp [List.replicate_succ, ih]

theorem Repeat_x (mem : Memory) {count : Int} (h0 : 0 < count) (h1 : count ≤ maxInt) :
    Repeat mem (lit "x") count =
      if count = 1 ∨ (count ≤ maxAlloc ∧ mem count.toNat = true) then
        some (List.replicate count.toNat 120)
      else none := by
  have hl : (lit "x").length = 1 := by decide
  have hx : lit "x" = [120] := by decide
  unfold Repeat
  rw [if_neg (by omega)]
  by_cases h1c : count = 1
  · subst h1c
    rw [if_pos rfl, if_pos (Or.inl rfl), hx]
    rfl
  · rw [if_neg h1c, if_neg (by omega), hl]
    simp only [Nat.cast_one, one_mul, Nat.one_ne_zero, if_false]
    rw [if_neg (by omega)]
    by_cases hA : count ≤ maxAlloc
    · rw [if_neg (by omega)]
      by_cases hm : mem count.toNat = true
      · simp [hA, hm, hx, replicate_singleton_flatten]
      · simp [hm, h1c]
    · rw [if_pos (by omega)]
      simp [hA, h1c]

/-- The padding step, case by case: the negative count of `strings.Repeat` never occurs,
its only failures are those of the allocation. -/
theorem padStep_eq (mem : Memory) (env : Env) (response : GoString) :
    padStep mem env response =
      match Atoi (Getenv env.RESPONSE_SIZE) with
      | some size =>
        if size > (response.length : Int) then
          if size - (response.length : Int) = 1 ∨
              (size - (response.length : Int) ≤ maxAlloc ∧
                mem (size - (response.length : Int)).toNat = true) then
            some (response ++ List.replicate (size - (response.length : Int)).toNat 120)
          else none
        else some response
      | none => some response := by
  unfold padStep
  by_cases hs : Getenv env.RESPONSE_SIZE = []
  · simp [hs, Atoi_nil]
  · simp only [ne_eq, hs, not_false_eq_true, if_true]
    cases hA : Atoi (Getenv env.RESPONSE_SIZE) with
    | none => rfl
    | some size =>
      have hr := Atoi_range hA
      simp only
      by_cases hgt : size > (response.length : Int)
      · rw [if_pos hgt, if_pos hgt, Repeat_x mem (by omega) (by omega)]
        by_cases hc : size - (response.length : Int) = 1 ∨
            (size - (response.length : Int) ≤ maxAlloc ∧
              mem (size - (response.length : Int)).toNat = true)
        · rw [if_pos hc, if_pos hc]
        · rw [if_neg hc, if_neg hc]
      · rw [if_neg hgt, if_neg hgt]

theorem padStep_some {mem : Memory} {env : Env} {response b : GoString}
    (h : padStep mem env response = some b) :
    b = response ++ List.replicate (padCount env response) 120 := by
  rw [padStep_eq] at h
  unfold padCount
  cases hA : Atoi (Getenv env.RESPONSE_SIZE) with
  | none =>
    rw [hA] at h
    simp only [Option.some.injEq] at h
    simp [← h]
  | some size =>
    rw [hA] at h
    simp only at h ⊢
    by_cases hgt : size > (response.length : Int)
    · rw [if_pos hgt] at h
      split at h
      · exact (Option.some.inj h).symm
      · cases h
    · rw [if_neg hgt] at h
      have h0 : (size - (response.length : Int)).toNat = 0 := by omega
      rw [h0, ← Option.some.inj h]
      simp

theorem padStep_of_padCount_zero (mem : Memory) {env : Env} {response : GoString}
    (h : padCount env response = 0) : padStep mem env response = some response := by
  rw [padStep_eq]
  unfold padCount at h
  cases hA : Atoi (Getenv env.RESPONSE_SIZE) with
  | none => rfl
  | some size =>
    rw [hA] at h
    simp only at h ⊢
    rw [if_neg (by omega)]

theorem padStep_of_mem {mem : Memory} {env : Env} {response : GoString} {size : Int}
    (hA : Atoi (Getenv env.RESPONSE_SIZE) = some size) (hgt : size > (response.length : Int))
    (hmax : size - (response.length : Int) ≤ maxAlloc)
    (hm : mem (size - (response.length : Int)).toNat = true) :
    padStep mem env response =
      some (response ++ List.replicate (size - (response.length : Int)).toNat 120) := by
  rw [padStep_eq, hA]
  simp only
  rw [if_pos hgt, if_pos (Or.inr ⟨hmax, hm⟩)]

theorem padStep_too_large (mem : Memory) {env : Env} {response : GoString} {size : Int}
    (hA : Atoi (Getenv env.RESPONSE_SIZE) = some size)
    (hmax : size - (response.length : Int) > maxAlloc) :
    padStep mem env response = none := by
  have hpos : (1 : Int) < maxAlloc := by decide
  rw [padStep_eq, hA]
  simp only
  rw [if_pos (by omega), if_neg (by omega)]

theorem handler_eq (mem : Memory) (env : Env) (r : Request) :
    handler mem env r =
      { slept := sleepArg env, status := statusArg env,
        written :=
          if 100 ≤ statusArg env ∧ statusArg env ≤ 999 then padStep mem env (render r)
          else none } := by
  simp only [handler, WriteHeader]
  by_cases h : statusArg env < 100 ∨ statusArg env > 999
  · have h2 : ¬ (100 ≤ statusArg env ∧ statusArg env ≤ 999) := by omega
    simp [h, h2]
  · have h2 : 100 ≤ statusArg env ∧ statusArg env ≤ 999 := by omega
    simp [h, h2]

theorem handler_written (mem : Memory) (env : Env) (r : Request) :
    (handler mem env r).written =
      if 100 ≤ statusArg env ∧ statusArg env ≤ 999 then padStep mem env (render r)
      else none := by
  rw [handler_eq]

theorem handler_status (mem : Memory) (env : Env) (r : Request) :
    (handler mem env r).status = statusArg env := by
  rw [handler_eq]

theorem handler_slept (mem : Memory) (env : Env) (r : Request) :
    (handler mem env r).slept = sleepArg env := by
  rw [handler_eq]

/-- Every body the handler writes is the rendered text followed by the padding. -/
theorem handler_written_some {mem : Memory} {env : Env} {r : Request} {b : GoString}
    (h : (handler mem env r).written = some b) :
    (100 ≤ statusArg env ∧ statusArg env ≤ 999) ∧
      b = render r ++ List.replicate (padCount env (render r)) 120 := by
  rw [handler_written] at h
  split at h
  · rename_i hs
    exact ⟨hs, padStep_some h⟩
  · cases h

/-- The handler writes the rendered text when the status is accepted and no padding is
asked for. -/
theorem handler_unpadded (mem : Memory) {env : Env} (r : Request)
    (hs : 100 ≤ statusArg env ∧ statusArg env ≤ 999) (hp : padCount env (render r) = 0) :
    handler mem env r =
      { slept := sleepArg env, status := statusArg env, written := some (render r) } := by
  rw [handler_eq, if_pos hs, padStep_of_padCount_zero mem hp]

/-- Nothing is written when `WriteHeader` is given a status outside 100..999. -/
theorem handler_bad_status (mem : Memory) {env : Env} (r : Request)
    (hs : statusArg env < 100 ∨ statusArg env > 999) : (handler mem env r).written = none := by
  rw [handler_written, if_neg (by omega)]

theorem strLess_asymm : ∀ (a b : GoString), strLess a b = true → strLess b a = false
  | [], [], h => by simp [strLess] at h
  | [], _ :: _, _ => by simp [strLess]
  | _ :: _, [], h => by simp [strLess] at h
  | a :: as, b :: bs, h => by
    rcases Nat.lt_trichotomy a b with h1 | h1 | h1
    · simp [strLess, h1, Nat.lt_asymm h1]
    · subst h1
      simp only [strLess, Nat.lt_irrefl, if_false] at h ⊢
      exact strLess_asymm as bs h
    · simp [strLess, h1, Nat.lt_asymm h1] at h

theorem strLess_trichotomy : ∀ (a b : GoString), strLess a b = false → strLess b a = false → a = b
  | [], [], _, _ => rfl
  | [], _ :: _, h, _ => by simp [strLess] at h
  | _ :: _, [], _, h => by simp [strLess] at h
  | a :: as, b :: bs, h, h' => by
    rcases Nat.lt_trichotomy a b with h1 | h1 | h1
    · simp [strLess, h1] at h
    · subst h1
      simp only [strLess, Nat.lt_irrefl, if_false] at h h'
      rw [strLess_trichotomy as bs h h']
    · simp [strLess, h1] at h'

theorem strLess_trans : ∀ (a b c : GoString), strLess a b = true → strLess b c = true →
    strLess a c = true
  | [], [], _, h, _ => by simp [strLess] at h
  | [], _ :: _, [], _, h => by simp [strLess] at h
  | [], _ :: _, _ :: _, _, _ => by simp [strLess]
  | _ :: _, [], _, h, _ => by simp [strLess] at h
  | _ :: _, _ :: _, [], _, h => by simp [strLess] at h
  | a :: as, b :: bs, c :: cs, h, h' => by
    rcases Nat.lt_trichotomy a b with h1 | h1 | h1
    · rcases Nat.lt_trichotomy b c with h2 | h2 | h2
      · simp [strLess, Nat.lt_trans h1 h2]
      · subst h2
        simp [strLess, h1]
      · simp [strLess, h2, Nat.lt_asymm h2] at h'
    · subst h1
      rcases Nat.lt_trichotomy a c with h2 | h2 | h2
      · simp [strLess, h2]
      · subst h2
        simp only [strLess, Nat.lt_irrefl, if_false] at h h' ⊢
        exact strLess_trans as bs cs h h'
      · simp [strLess, h2, Nat.lt_asymm h2] at h'
    · simp [strLess, h1, Nat.lt_asymm h1] at h

theorem strLE_total (a b : GoString) : strLE a b ∨ strLE b a := by
  unfold strLE
  cases h : strLess a b
  · exact Or.inr rfl
  · exact Or.inl (strLess_asymm a b h)

theorem strLE_trans (a b c : GoString) (h : strLE a b) (h' : strLE b c) : strLE a c := by
  unfold strLE at *
  cases hca : strLess c a
  · rfl
  · cases hab : strLess a b
    · have := strLess_trichotomy a b hab h
      subst this
      rw [hca] at h'
      exact h'
    · have := strLess_trans c a b hca hab
      rw [this] at h'
      exact h'

theorem strLE_antisymm (a b : GoString) (h : strLE a b) (h' : strLE b a) : a = b :=
  strLess_trichotomy a b h' h

theorem sortStrings_perm (keys : List GoString) : (sortStrings keys).Perm keys :=
  List.perm_insertionSort strLE keys

theorem sortStrings_sorted (keys : List GoString) : (sortStrings keys).Sorted strLE :=
  @List.sorted_insertionSort GoString strLE _ ⟨strLE_total⟩ ⟨strLE_trans⟩ keys

theorem sortStrings_strict (keys : List GoString) (hk : keys.Nodup) :
    (sortStrings keys).Sorted (fun a b => strLess a b = true) := by
  have hs := sortStrings_sorted keys
  have hn : (sortStrings keys).Nodup := (sortStrings_perm keys).nodup_iff.mpr hk
  unfold List.Sorted at hs ⊢
  unfold List.Nodup at hn
  refine (hs.and hn).imp ?_
  intro a b ⟨h1, h2⟩
  cases hab : strLess a b
  · exact absurd (strLess_trichotomy a b hab h1) h2
  · rfl

theorem sortStrings_congr {k k' : List GoString} (h : k'.Perm k) : sortStrings k' = sortStrings k :=
  @List.eq_of_perm_of_sorted GoString strLE ⟨strLE_antisymm⟩ _ _
    (((sortStrings_perm k').trans h).trans (sortStrings_perm k).symm)
    (sortStrings_sorted k') (sortStrings_sorted k)
theorem mapIndex_of_mem {H : List (GoString × List GoString)} (hk : (H.map Prod.fst).Nodup)
    {k : GoString} {v : List GoString} (h : (k, v) ∈ H) : mapIndex H k = v := by
  induction H with
  | nil => simp at h
  | cons e rest ih =>
    obtain ⟨k', v'⟩ := e
    simp only [List.map_cons, List.nodup_cons, List.mem_map, not_exists, not_and] at hk
    rcases List.mem_cons.mp h with h1 | h1
    · cases h1
      simp [mapIndex]
    · have hne : k' ≠ k := by
        intro hkk
        exact hk.1 (k, v) h1 hkk.symm
      simp only [mapIndex, hne, if_false]
      exact ih hk.2 h1

theorem mapIndex_of_not_mem {H : List (GoString × List GoString)} {k : GoString}
    (h : k ∉ H.map Prod.fst) : mapIndex H k = [] := by
  induction H with
  | nil => rfl
  | cons e rest ih =>
    obtain ⟨k', v'⟩ := e
    simp only [List.map_cons, List.mem_cons, not_or] at h
    have hne : k' ≠ k := fun hkk => h.1 hkk.symm
    simp only [mapIndex, hne, if_false]
    exact ih h.2

theorem mapIndex_perm {H H' : List (GoString × List GoString)} (hk : (H.map Prod.fst).Nodup)
    (hp : H'.Perm H) (k : GoString) : mapIndex H' k = mapIndex H k := by
  have hk' : (H'.map Prod.fst).Nodup := (hp.map Prod.fst).nodup_iff.mpr hk
  by_cases hm : k ∈ H.map Prod.fst
  · obtain ⟨e, he, hek⟩ := List.mem_map.mp hm
    obtain ⟨k0, v⟩ := e
    simp only at hek
    subst hek
    rw [mapIndex_of_mem hk he, mapIndex_of_mem hk' (hp.mem_iff.mpr he)]
  · have hm' : k ∉ H'.map Prod.fst := fun h => hm ((hp.map Prod.fst).mem_iff.mp h)
    rw [mapIndex_of_not_mem hm, mapIndex_of_not_mem hm']

theorem headerBlock_eq (H : List (GoString × List GoString)) :
    headerBlock H =
      ((sortStrings (H.map Prod.fst)).map fun k => headerLine k (mapIndex H k)).flatten := by
  simp [headerBlock, foldl_append_flatten, sortedKeys_eq]

theorem headerBlock_perm {H H' : List (GoString × List GoString)}
    (hk : (H.map Prod.fst).Nodup) (hp : H'.Perm H) : headerBlock H' = headerBlock H := by
  rw [headerBlock_eq, headerBlock_eq, sortStrings_congr (hp.map Prod.fst)]
  congr 1
  apply List.map_congr_left
  intro k _
  rw [mapIndex_perm hk hp]

theorem renderHead_eq (r : Request) :
    renderHead r =
      lit "Method: " ++ r.Method ++ lit "\n\n" ++ (lit "Path: " ++ r.Path ++ lit "\n\n")
        ++ lit "Headers:\n" ++ headerBlock r.Header ++ lit "\n" := by
  simp [renderHead, headerBlock, foldl_append_flatten, List.append_assoc]

theorem renderHead_perm (r : Request) (hk : (r.Header.map Prod.fst).Nodup)
    {H' : List (GoString × List GoString)} (hp : H'.Perm r.Header) :
    renderHead { r with Header := H' } = renderHead r := by
  rw [renderHead_eq, renderHead_eq, headerBlock_perm hk hp]

theorem handler_perm (mem : Memory) (env : Env) (r : Request)
    (hk : (r.Header.map Prod.fst).Nodup)
    {H' : List (GoString × List GoString)} (hp : H'.Perm r.Header) :
    handler mem env { r with Header := H' } = handler mem env r := by
  have h : render { r with Header := H' } = render r := by
    simp only [render, renderHead_perm r hk hp]
  simp only [handler, h]

theorem sortedEntries_perm {H : List (GoString × List GoString)} (hk : (H.map Prod.fst).Nodup) :
    (sortedEntries H).Perm H := by
  have h1 : ((sortStrings (H.map Prod.fst)).map fun k => (k, mapIndex H k)).Perm
      ((H.map Prod.fst).map fun k => (k, mapIndex H k)) :=
    (sortStrings_perm _).map _
  have h2 : ((H.map Prod.fst).map fun k => (k, mapIndex H k)) = H := by
    rw [List.map_map]
    conv_rhs => rw [← List.map_id H]
    apply List.map_congr_left
    intro e he
    obtain ⟨k, v⟩ := e
    simp [mapIndex_of_mem hk he]
  unfold sortedEntries
  rw [sortedKeys_eq]
  exact h1.trans (List.Perm.of_eq h2)

theorem splitLines_ne_nil (s : GoString) : splitLines s ≠ [] := by
  cases s with
  | nil => simp [splitLines]
  | cons c cs =>
    simp only [splitLines]
    split <;> simp

theorem splitLines_append_newline (a b : GoString) :
    splitLines (a ++ 10 :: b) = splitLines a ++ splitLines b := by
  induction a with
  | nil => simp [splitLines]
  | cons c cs ih =>
    simp only [List.cons_append, splitLines]
    by_cases hc : c = 10
    · simp [hc, ih]
    · have ih2 : splitLines (cs.append (10 :: b)) = splitLines cs ++ splitLines b := ih
      rw [if_neg hc, if_neg hc, ih2]
      cases hs : splitLines cs with
      | nil => exact absurd hs (splitLines_ne_nil cs)
      | cons l ls => simp

theorem splitLines_of_no_newline (s : GoString) (h : 10 ∉ s) : splitLines s = [s] := by
  induction s with
  | nil => rfl
  | cons c cs ih =>
    simp only [List.mem_cons, not_or] at h
    have hc : c ≠ 10 := fun e => h.1 e.symm
    simp [splitLines, hc, ih h.2]

theorem bodyLines_append_newline (a b : GoString) :
    bodyLines (a ++ 10 :: b) = bodyLines a ++ bodyLines b := by
  simp [bodyLines, splitLines_append_newline]

theorem bodyLines_padding (n : Nat) : bodyLines (List.replicate n 120) = [] := by
  have h : (10 : Byte) ∉ List.replicate n 120 := by
    intro hm
    exact absurd (List.eq_of_mem_replicate hm) (by decide)
  unfold bodyLines
  rw [splitLines_of_no_newline _ h]
  cases n with
  | zero => decide
  | succ m => simp [List.replicate_succ, lit, List.isPrefixOf]

theorem bodyLines_nil : bodyLines [] = [] := by decide

theorem lit_newline : lit "\n" = [10] := by decide

/-- Adding padding after a text that ends in a newline adds no line beginning with `Body:`. -/
theorem bodyLines_newline_padding (a : GoString) (n : Nat) :
    bodyLines (a ++ lit "\n" ++ List.replicate n 120) = bodyLines (a ++ lit "\n") := by
  rw [lit_newline, List.append_assoc, List.singleton_append, bodyLines_append_newline,
    bodyLines_padding, bodyLines_append_newline, bodyLines_nil]

theorem render_eq_specBody (r : Request) : render r = specBody r := by
  unfold render specBody
  rw [renderHead_eq]
  cases hB : r.Body with
  | nil => simp
  | cons c cs => simp

theorem padCount_unset (env : Env) (response : GoString) (h : env.RESPONSE_SIZE = none) :
    padCount env response = 0 := by
  simp [padCount, h, Getenv, Atoi_nil]

theorem statusArg_zero (d rs : Option GoString) :
    statusArg { DELAY := d, STATUS_CODE := some (lit "0"), RESPONSE_SIZE := rs } = 0 := by
  have ha : Atoi (lit "0") = some 0 := by decide
  have hn : lit "0" ≠ [] := by decide
  simp [statusArg, Getenv, ha, hn]

theorem statusArg_eq (env : Env) :
    statusArg env = (Atoi (Getenv env.STATUS_CODE)).getD 200 := by
  unfold statusArg
  by_cases h : Getenv env.STATUS_CODE = []
  · simp [h, Atoi_nil]
  · simp only [ne_eq, h, not_false_eq_true, if_true]
    cases Atoi (Getenv env.STATUS_CODE) <;> rfl

theorem headerBlock_entries (H : List (GoString × List GoString)) :
    headerBlock H =
      ((sortedEntries H).map fun e => e.1 ++ lit ": " ++ Join e.2 (lit ", ") ++ lit "\n").flatten := by
  rw [headerBlock_eq]
  simp [sortedEntries, sortedKeys_eq, List.map_map, Function.comp_def, headerLine]

theorem sortedEntries_keys_sorted {H : List (GoString × List GoString)}
    (hk : (H.map Prod.fst).Nodup) :
    ((sortedEntries H).map Prod.fst).Sorted (fun a b => strLess a b = true) := by
  have : (sortedEntries H).map Prod.fst = sortStrings (H.map Prod.fst) := by
    simp [sortedEntries, sortedKeys_eq, List.map_map, Function.comp_def]
  rw [this]
  exact sortStrings_strict _ hk

/-! ## The claims -/

/-- C1 fails on the code: with RESPONSE_SIZE unset and STATUS_CODE=0 the handler passes 0
to `WriteHeader`, which panics, and writes nothing, where the claim promises the stated
text. That panic apart the claim holds: with RESPONSE_SIZE unset a body is written exactly
when the status lies in 100..999, and it is the text of the claim; both examples of the
specification evaluate as stated, with status 200. -/
theorem C1_status_zero_no_body (mem : Memory) (d s : Option GoString) (r : Request) :
    (handler mem { DELAY := d, STATUS_CODE := some (lit "0"), RESPONSE_SIZE := none } r).written
        = none ∧
      (handler mem { DELAY := d, STATUS_CODE := s, RESPONSE_SIZE := none } r).written =
        (if 100 ≤ statusArg { DELAY := d, STATUS_CODE := s, RESPONSE_SIZE := none } ∧
            statusArg { DELAY := d, STATUS_CODE := s, RESPONSE_SIZE := none } ≤ 999 then
          some (specBody r)
        else none) ∧
      handler mem noEnv reqGetTest =
        { slept := none, status := 200,
          written := some (lit "Method: GET\n\nPath: /test\n\nHeaders:\nUser-Agent: test\n\n") } ∧
      handler mem noEnv reqPostApi =
        { slept := none, status := 200,
          written := some (lit ("Method: POST\n\nPath: /api\n\nHeaders:\n" ++
            "Content-Type: application/json\n\nBody: \x7b\"key\": \"value\"\x7d\n")) } := by
  refine ⟨?_, ?_, ?_, ?_⟩
  · exact handler_bad_status mem r (by rw [statusArg_zero]; decide)
  · rw [handler_written, padStep_of_padCount_zero mem (padCount_unset _ _ rfl),
      render_eq_specBody]
  · rw [handler_unpadded mem reqGetTest (by decide) (padCount_unset _ _ rfl)]
    decide
  · rw [handler_unpadded mem reqPostApi (by decide) (padCount_unset _ _ rfl)]
    decide

/-- C2 fails on the code: with STATUS_CODE=0 the handler panics in `WriteHeader` before it
renders anything, so no header block is written for any request. That panic apart the
claim holds for a header map (distinct keys): every body the handler writes carries,
between `Headers:` and the blank line, one line per entry of the map, the lines in
strictly ascending bytewise order of the key, each line the key, `: `, the values joined
with `, ` in stored order, and a newline; such a body is written whenever the status lies
in 100..999 and no padding is asked for; and the outcome of the handler does not depend on
the order in which the map is iterated. -/
theorem C2_header_block (mem : Memory) (env : Env) (r : Request)
    (hk : (r.Header.map Prod.fst).Nodup) :
    (∃ es : List (GoString × List GoString),
        es.Perm r.Header ∧
        (es.map Prod.fst).Sorted (fun a b => strLess a b = true) ∧
        (∀ b : GoString, (handler mem env r).written = some b →
          b = lit "Method: " ++ r.Method ++ lit "\n\n" ++ (lit "Path: " ++ r.Path ++ lit "\n\n")
              ++ lit "Headers:\n"
              ++ (es.map fun e => e.1 ++ lit ": " ++ Join e.2 (lit ", ") ++ lit "\n").flatten
              ++ lit "\n"
              ++ (if r.Body ≠ [] then lit "Body: " ++ r.Body ++ lit "\n" else [])
              ++ List.replicate (padCount env (render r)) 120) ∧
        (100 ≤ statusArg env ∧ statusArg env ≤ 999 → padCount env (render r) = 0 →
          (handler mem env r).written =
            some (lit "Method: " ++ r.Method ++ lit "\n\n" ++ (lit "Path: " ++ r.Path ++ lit "\n\n")
              ++ lit "Headers:\n"
              ++ (es.map fun e => e.1 ++ lit ": " ++ Join e.2 (lit ", ") ++ lit "\n").flatten
              ++ lit "\n"
              ++ (if r.Body ≠ [] then lit "Body: " ++ r.Body ++ lit "\n" else [])))) ∧
      (∀ H' : List (GoString × List GoString),
        H'.Perm r.Header → handler mem env { r with Header := H' } = handler mem env r) ∧
      (handler mem { env with STATUS_CODE := some (lit "0") } r).written = none := by
  have hr : render r =
      lit "Method: " ++ r.Method ++ lit "\n\n" ++ (lit "Path: " ++ r.Path ++ lit "\n\n")
        ++ lit "Headers:\n"
        ++ ((sortedEntries r.Header).map fun e =>
            e.1 ++ lit ": " ++ Join e.2 (lit ", ") ++ lit "\n").flatten
        ++ lit "\n"
        ++ (if r.Body ≠ [] then lit "Body: " ++ r.Body ++ lit "\n" else []) := by
    rw [render_eq_specBody, specBody, headerBlock_entries]
  refine ⟨⟨sortedEntries r.Header, sortedEntries_perm hk, sortedEntries_keys_sorted hk, ?_, ?_⟩,
    fun H' hp => handler_perm mem env r hk hp, ?_⟩
  · intro b hb
    rw [(handler_written_some hb).2]
    exact congrArg (fun t => t ++ List.replicate (padCount env (render r)) 120) hr
  · intro hs hp
    rw [handler_unpadded mem r hs hp, hr]
  · exact handler_bad_status mem r (by rw [statusArg_zero]; decide)

/-- C2, at a request whose map is visited as `B`, `A`, with no variable set: the body
written has the block `A: 3`, `B: 1, 2`, whatever the order of the map. -/
theorem C2_header_block_witness :
    (reqTwoHeaders.Header.map Prod.fst).Nodup ∧
      (handler oneGiB noEnv reqTwoHeaders).written =
        some (lit "Method: GET\n\nPath: /\n\nHeaders:\nA: 3\nB: 1, 2\n\n") ∧
      ∀ H' : List (GoString × List GoString),
        H'.Perm reqTwoHeaders.Header →
          handler oneGiB noEnv { reqTwoHeaders with Header := H' } =
            handler oneGiB noEnv reqTwoHeaders :=
  ⟨by decide, by decide, (C2_header_block oneGiB noEnv reqTwoHeaders (by decide)).2.1⟩

/-- C3 as stated fails at its own example: the natural body of `GET /` is not 33 bytes
long, and with RESPONSE_SIZE=100 the body written is not that text followed by 67 `x`. -/
theorem C3_counterexample :
    ¬ ((render reqGetRoot).length = 33 ∧
        (handler oneGiB { noEnv with RESPONSE_SIZE := some (lit "100") } reqGetRoot).written =
          some (render reqGetRoot ++ List.replicate 67 120)) := by
  intro h
  exact absurd h.1 (by decide)

/-- C3, amended: when RESPONSE_SIZE parses to N, every body the handler writes is the
rendered text R followed by `N - len R` bytes `x` (length exactly N) if N exceeds `len R`,
and R unchanged otherwise; under every configuration R is a prefix of a body written. A
body is written when the status lies in 100..999 and either N is at most `len R`, or the
padding of `N - len R` bytes is within the allocation limit and the process has the
memory for it. For `GET /` with RESPONSE_SIZE=100 and the memory for 68 bytes the body is
the 32-byte natural body followed by 68 `x`. -/
theorem C3_padding (mem : Memory) (env : Env) (r : Request) (N : Int)
    (hN : Atoi (Getenv env.RESPONSE_SIZE) = some N) :
    (∀ b : GoString, (handler mem env r).written = some b →
        b = if N > ((render r).length : Int) then
            render r ++ List.replicate (N - ((render r).length : Int)).toNat 120
          else render r) ∧
      (N > ((render r).length : Int) →
        (((render r ++ List.replicate (N - ((render r).length : Int)).toNat 120).length : Nat)
          : Int) = N) ∧
      (∀ (mem' : Memory) (env' : Env) (b : GoString),
        (handler mem' env' r).written = some b → render r <+: b) ∧
      (100 ≤ statusArg env ∧ statusArg env ≤ 999 → N ≤ ((render r).length : Int) →
        (handler mem env r).written = some (render r)) ∧
      (100 ≤ statusArg env ∧ statusArg env ≤ 999 → N > ((render r).length : Int) →
        N - ((render r).length : Int) ≤ maxAlloc →
        mem (N - ((render r).length : Int)).toNat = true →
        (handler mem env r).written =
          some (render r ++ List.replicate (N - ((render r).length : Int)).toNat 120)) ∧
      render reqGetRoot = lit "Method: GET\n\nPath: /\n\nHeaders:\n\n" ∧
      (render reqGetRoot).length = 32 ∧
      (mem 68 = true →
        handler mem { noEnv with RESPONSE_SIZE := some (lit "100") } reqGetRoot =
          { slept := none, status := 200,
            written := some (render reqGetRoot ++ List.replicate 68 120) }) := by
  have hc : padCount env (render r) = (N - ((render r).length : Int)).toNat := by
    simp [padCount, hN]
  refine ⟨?_, ?_, ?_, ?_, ?_, by decide, by decide, ?_⟩
  · intro b hb
    rw [(handler_written_some hb).2, hc]
    by_cases hgt : N > ((render r).length : Int)
    · rw [if_pos hgt]
    · have h0 : (N - ((render r).length : Int)).toNat = 0 := by omega
      rw [if_neg hgt, h0]
      simp
  · intro hgt
    rw [List.length_append, List.length_replicate]
    omega
  · intro mem' env' b hb
    rw [(handler_written_some hb).2]
    exact List.prefix_append _ _
  · intro hs hle
    have h0 : padCount env (render r) = 0 := by
      rw [hc]
      omega
    rw [handler_unpadded mem r hs h0]
  · intro hs hgt hmax hm
    rw [handler_written, if_pos hs, padStep_of_mem hN hgt hmax hm]
  · intro hm
    have h100 : Atoi (Getenv ({ noEnv with RESPONSE_SIZE := some (lit "100") } : Env).RESPONSE_SIZE)
        = some 100 := by decide
    have hlen : ((render reqGetRoot).length : Int) = 32 := by decide
    have h68 : ((100 : Int) - ((render reqGetRoot).length : Int)).toNat = 68 := by
      rw [hlen]
      rfl
    rw [handler_eq, if_pos (by decide),
      padStep_of_mem h100 (by rw [hlen]; decide) (by rw [hlen]; decide) (by rw [h68]; exact hm),
      h68]
    rfl

/-- C3, at `GET /` with RESPONSE_SIZE=100 on a process with one GiB to spare. -/
theorem C3_padding_witness :
    Atoi (Getenv ({ noEnv with RESPONSE_SIZE := some (lit "100") } : Env).RESPONSE_SIZE) =
        some 100 ∧
      oneGiB 68 = true ∧
      handler oneGiB { noEnv with RESPONSE_SIZE := some (lit "100") } reqGetRoot =
        { slept := none, status := 200,
          written := some (render reqGetRoot ++ List.replicate 68 120) } :=
  ⟨by decide, by decide,
    (C3_padding oneGiB { noEnv with RESPONSE_SIZE := some (lit "100") } reqGetRoot 100
      (by decide)).2.2.2.2.2.2.2 (by decide)⟩

theorem sleepArg_malformed (env : Env) (v : GoString) (hv : Atoi v = none) :
    sleepArg { env with DELAY := some v } = none := by
  by_cases h : v = [] <;> simp [sleepArg, Getenv, h, hv]

theorem statusArg_malformed (env : Env) (v : GoString) (hv : Atoi v = none) :
    statusArg { env with STATUS_CODE := some v } = 200 := by
  by_cases h : v = [] <;> simp [statusArg, Getenv, h, hv]

theorem padStep_malformed (mem : Memory) (env : Env) (v : GoString) (hv : Atoi v = none)
    (response : GoString) :
    padStep mem { env with RESPONSE_SIZE := some v } response = some response := by
  by_cases h : v = [] <;> simp [padStep, Getenv, h, hv]

/-- C4: a value that `strconv.Atoi` rejects, given to DELAY, STATUS_CODE or
RESPONSE_SIZE, leaves the whole outcome of the handler (sleep, status, body) as it is with
that variable unset, whatever the request and the other two variables: no sleep, status
200, no padding respectively. -/
theorem C4_malformed_as_unset (mem : Memory) (env : Env) (r : Request) (v : GoString)
    (hv : Atoi v = none) :
    handler mem { env with DELAY := some v } r = handler mem { env with DELAY := none } r ∧
      handler mem { env with STATUS_CODE := some v } r =
        handler mem { env with STATUS_CODE := none } r ∧
      handler mem { env with RESPONSE_SIZE := some v } r =
        handler mem { env with RESPONSE_SIZE := none } r ∧
      (handler mem { env with DELAY := some v } r).slept = none ∧
      (handler mem { env with STATUS_CODE := some v } r).status = 200 ∧
      (handler mem { env with RESPONSE_SIZE := some v } r).written =
        (if 100 ≤ statusArg env ∧ statusArg env ≤ 999 then some (render r) else none) := by
  have hd : sleepArg { env with DELAY := some v } = sleepArg { env with DELAY := none } := by
    rw [sleepArg_malformed env v hv]
    simp [sleepArg, Getenv]
  have hs : statusArg { env with STATUS_CODE := some v } =
      statusArg { env with STATUS_CODE := none } := by
    rw [statusArg_malformed env v hv]
    simp [statusArg, Getenv]
  have hp : ∀ response, padStep mem { env with RESPONSE_SIZE := some v } response =
      padStep mem { env with RESPONSE_SIZE := none } response := by
    intro response
    rw [padStep_malformed mem env v hv]
    simp [padStep, Getenv]
  refine ⟨?_, ?_, ?_, ?_, ?_, ?_⟩
  · simp only [handler, hd]
    rfl
  · simp only [handler, hs]
    rfl
  · simp only [handler, hp]
    rfl
  · rw [handler_slept, sleepArg_malformed env v hv]
  · rw [handler_status, statusArg_malformed env v hv]
  · have hst : statusArg { env with RESPONSE_SIZE := some v } = statusArg env := rfl
    rw [handler_written, hst, padStep_malformed mem env v hv]

/-- C4, at the value `abc` with `GET /test`, with the other malformed values of the
specification rejected by `strconv.Atoi` as well. -/
theorem C4_malformed_as_unset_witness :
    Atoi (lit "abc") = none ∧ Atoi (lit "1.5") = none ∧ Atoi (lit "10ms") = none ∧
      Atoi (lit " 5") = none ∧ Atoi (lit "9223372036854775808") = none ∧
      handler oneGiB { noEnv with STATUS_CODE := some (lit "abc") } reqGetTest =
        handler oneGiB { noEnv with STATUS_CODE := none } reqGetTest :=
  ⟨by decide, by decide, by decide, by decide, by decide,
    (C4_malformed_as_unset oneGiB noEnv reqGetTest (lit "abc") (by decide)).2.1⟩

/-- C5 fails on the code in its last sentence: the body does depend on STATUS_CODE, since
with STATUS_CODE=0 the handler panics in `WriteHeader` and writes nothing, while with
STATUS_CODE unset the same request is answered with its text. The rest holds: the status
passed to `WriteHeader` is the parsed value of STATUS_CODE (200 when it is unset or
malformed) for every request and every value of the other variables, as for
STATUS_CODE=404; and STATUS_CODE bears on the body only through the acceptance of the
status. -/
theorem C5_status (mem : Memory) (env : Env) (r : Request) (s : Option GoString) :
    (handler mem env r).status = (Atoi (Getenv env.STATUS_CODE)).getD 200 ∧
      (handler mem noEnv r).status = 200 ∧
      handler mem { noEnv with STATUS_CODE := some (lit "404") } reqGetRoot =
        { slept := none, status := 404,
          written := some (lit "Method: GET\n\nPath: /\n\nHeaders:\n\n") } ∧
      (handler mem noEnv reqGetRoot).written =
        some (lit "Method: GET\n\nPath: /\n\nHeaders:\n\n") ∧
      (handler mem { noEnv with STATUS_CODE := some (lit "0") } reqGetRoot).written = none ∧
      (handler mem { env with STATUS_CODE := s } r).written =
        (if 100 ≤ statusArg { env with STATUS_CODE := s } ∧
            statusArg { env with STATUS_CODE := s } ≤ 999 then
          padStep mem env (render r)
        else none) := by
  refine ⟨?_, ?_, ?_, ?_, ?_, ?_⟩
  · rw [handler_status, statusArg_eq]
  · rw [handler_status]
    rfl
  · rw [handler_unpadded mem reqGetRoot (by decide) (padCount_unset _ _ rfl)]
    decide
  · rw [handler_unpadded mem reqGetRoot (by decide) (padCount_unset _ _ rfl)]
    decide
  · exact handler_bad_status mem reqGetRoot (by decide)
  · rw [handler_written]
    rfl

theorem render_of_empty_body (r : Request) (hB : r.Body = []) : render r = renderHead r := by
  simp [render, hB]

theorem render_of_body (r : Request) (hB : r.Body ≠ []) :
    render r = renderHead r ++ (lit "Body: " ++ r.Body ++ lit "\n") := by
  have : r.Body.length > 0 := List.length_pos.mpr hB
  simp [render, this]

theorem renderHead_ends_newline (r : Request) : ∃ X : GoString, renderHead r = X ++ lit "\n" :=
  ⟨_, renderHead_eq r⟩

theorem bodyLines_eq_nil_iff (s : GoString) :
    bodyLines s = [] ↔ ∀ l ∈ splitLines s, (lit "Body:").isPrefixOf l = false := by
  simp only [bodyLines, List.filter_eq_nil_iff, Bool.not_eq_true]

theorem bodyLines_body_line (B : GoString) (hB : 10 ∉ B) :
    bodyLines (lit "Body: " ++ B) = [lit "Body: " ++ B] := by
  have hlit : lit "Body: " = [66, 111, 100, 121, 58, 32] := by decide
  have hpre : lit "Body:" = [66, 111, 100, 121, 58] := by decide
  have hn : (10 : Byte) ∉ lit "Body: " ++ B := by
    rw [hlit]
    simp only [List.cons_append, List.nil_append, List.mem_cons, not_or]
    exact ⟨by decide, by decide, by decide, by decide, by decide, by decide, hB⟩
  unfold bodyLines
  rw [splitLines_of_no_newline _ hn, hlit, hpre]
  simp [List.isPrefixOf]

/-- C6 as stated fails: `GET /` with the header `Body: x` and an empty body is answered
with a text whose fourth line is `Body: x`. -/
theorem C6_counterexample :
    reqBodyHeader.Body = [] ∧
      (handler oneGiB noEnv reqBodyHeader).written =
        some (lit "Method: GET\n\nPath: /\n\nHeaders:\nBody: x\n\n") ∧
      bodyLines (lit "Method: GET\n\nPath: /\n\nHeaders:\nBody: x\n\n") = [lit "Body: x"] :=
  ⟨rfl, by decide, by decide⟩

/-- C6, amended: for a request with an empty body, every body the handler writes is the
method, path and header text with its blank line, followed only by padding; its lines
beginning with `Body:` are exactly those of the method, path and header text, so there is
none when that text has none. Such a body is written when the status lies in 100..999 and
no padding is asked for. -/
theorem C6_no_body_block (mem : Memory) (env : Env) (r : Request) (hB : r.Body = []) :
    (∀ b : GoString, (handler mem env r).written = some b →
        b = renderHead r ++ List.replicate (padCount env (renderHead r)) 120) ∧
      (∀ b : GoString, (handler mem env r).written = some b →
        bodyLines b = bodyLines (renderHead r)) ∧
      (bodyLines (renderHead r) = [] →
        ∀ b : GoString, (handler mem env r).written = some b →
          ∀ l ∈ splitLines b, (lit "Body:").isPrefixOf l = false) ∧
      (100 ≤ statusArg env ∧ statusArg env ≤ 999 → padCount env (renderHead r) = 0 →
        (handler mem env r).written = some (renderHead r)) := by
  have hr := render_of_empty_body r hB
  have hw : ∀ b : GoString, (handler mem env r).written = some b →
      b = renderHead r ++ List.replicate (padCount env (renderHead r)) 120 := by
    intro b hb
    rw [← hr]
    exact (handler_written_some hb).2
  have hl : ∀ b : GoString, (handler mem env r).written = some b →
      bodyLines b = bodyLines (renderHead r) := by
    intro b hb
    obtain ⟨X, hX⟩ := renderHead_ends_newline r
    rw [hw b hb, hX, bodyLines_newline_padding]
  refine ⟨hw, hl, ?_, ?_⟩
  · intro h0 b hb
    have := hl b hb
    rw [h0] at this
    exact (bodyLines_eq_nil_iff b).mp this
  · intro hs hp
    rw [← hr] at hp ⊢
    rw [handler_unpadded mem r hs hp]

/-- C6, at `GET /test` with the header `User-Agent: test` and no variable set: a body is
written and no line of it begins with `Body:`. -/
theorem C6_no_body_block_witness :
    reqGetTest.Body = [] ∧ bodyLines (renderHead reqGetTest) = [] ∧
      (handler oneGiB noEnv reqGetTest).written = some (renderHead reqGetTest) ∧
      ∀ b : GoString, (handler oneGiB noEnv reqGetTest).written = some b →
        ∀ l ∈ splitLines b, (lit "Body:").isPrefixOf l = false :=
  ⟨rfl, by decide, by decide,
    (C6_no_body_block oneGiB noEnv reqGetTest rfl).2.2.1 (by decide)⟩

/-- C7 as stated fails: `POST /` with the body `a`, newline, `Body: b` is answered with a
text that has two lines beginning with `Body:`, neither of which is `Body: ` followed by
the whole body. -/
theorem C7_counterexample :
    reqTwoLineBody.Body ≠ [] ∧
      (handler oneGiB noEnv reqTwoLineBody).written =
        some (lit "Method: POST\n\nPath: /\n\nHeaders:\n\nBody: a\nBody: b\n") ∧
      bodyLines (lit "Method: POST\n\nPath: /\n\nHeaders:\n\nBody: a\nBody: b\n") =
        [lit "Body: a", lit "Body: b"] :=
  ⟨by decide, by decide, by decide⟩

/-- C7, amended: for a request with a non-empty body B the rendered text is the method,
path and header text followed by `Body: `, B verbatim and a newline, and every body the
handler writes is that text followed only by padding; with RESPONSE_SIZE unset a body
written ends with `Body: `, B and a newline; and when B holds no newline byte and no line
of the method, path and header text begins with `Body:`, a body written has exactly one
line beginning with `Body:`, namely `Body: ` followed by B. Such a body is written when
the status lies in 100..999 and no padding is asked for. -/
theorem C7_body_block (mem : Memory) (env : Env) (r : Request) (hB : r.Body ≠ []) :
    render r = renderHead r ++ (lit "Body: " ++ r.Body ++ lit "\n") ∧
      (∀ b : GoString, (handler mem env r).written = some b →
        b = renderHead r ++ (lit "Body: " ++ r.Body ++ lit "\n")
          ++ List.replicate (padCount env (render r)) 120) ∧
      (env.RESPONSE_SIZE = none → ∀ b : GoString, (handler mem env r).written = some b →
        (lit "Body: " ++ r.Body ++ lit "\n") <:+ b) ∧
      (10 ∉ r.Body → bodyLines (renderHead r) = [] →
        ∀ b : GoString, (handler mem env r).written = some b →
          bodyLines b = [lit "Body: " ++ r.Body]) ∧
      (100 ≤ statusArg env ∧ statusArg env ≤ 999 → padCount env (render r) = 0 →
        (handler mem env r).written =
          some (renderHead r ++ (lit "Body: " ++ r.Body ++ lit "\n"))) := by
  have hr := render_of_body r hB
  have hw : ∀ b : GoString, (handler mem env r).written = some b →
      b = renderHead r ++ (lit "Body: " ++ r.Body ++ lit "\n")
        ++ List.replicate (padCount env (render r)) 120 := by
    intro b hb
    have := (handler_written_some hb).2
    rw [this]
    exact congrArg (fun t => t ++ List.replicate (padCount env (render r)) 120) hr
  refine ⟨hr, hw, ?_, ?_, ?_⟩
  · intro hs b hb
    rw [hw b hb, padCount_unset env _ hs]
    simp only [List.replicate_zero, List.append_nil]
    exact List.suffix_append _ _
  · intro hnl h0 b hb
    obtain ⟨X, hX⟩ := renderHead_ends_newline r
    have hX0 : bodyLines X = [] := by
      have := h0
      rw [hX, lit_newline, bodyLines_append_newline, bodyLines_nil, List.append_nil] at this
      exact this
    have hshape : X ++ lit "\n" ++ (lit "Body: " ++ r.Body ++ lit "\n") ++
        List.replicate (padCount env (render r)) 120
        = X ++ 10 :: ((lit "Body: " ++ r.Body) ++ 10 ::
          List.replicate (padCount env (render r)) 120) := by
      simp [lit_newline, List.append_assoc]
    rw [hw b hb, hX, hshape, bodyLines_append_newline, bodyLines_append_newline, hX0,
      bodyLines_body_line _ hnl, bodyLines_padding]
    rfl
  · intro hs hp
    rw [handler_unpadded mem r hs hp, hr]

/-- C7, at `POST /` with the body `hello` and no variable set: a body is written and its
one `Body:` line is `Body: hello`. -/
theorem C7_body_block_witness :
    reqHello.Body ≠ [] ∧ 10 ∉ reqHello.Body ∧ bodyLines (renderHead reqHello) = [] ∧
      (handler oneGiB noEnv reqHello).written =
        some (lit "Method: POST\n\nPath: /\n\nHeaders:\n\nBody: hello\n") ∧
      ∀ b : GoString, (handler oneGiB noEnv reqHello).written = some b →
        bodyLines b = [lit "Body: " ++ reqHello.Body] :=
  ⟨by decide, by decide, by decide, by decide,
    (C7_body_block oneGiB noEnv reqHello (by decide)).2.2.2.1 (by decide) (by decide)⟩

/-- C8 fails on the code. With STATUS_CODE=0, or 1000, the handler passes the value to
`WriteHeader`, which panics, and nothing is written, whatever the request and the other
two variables. With RESPONSE_SIZE=9223372036854775807 and `GET /`, the handler asks
`strings.Repeat` for a padding above the allocation limit of the runtime, which panics,
and nothing is written, whatever the memory of the process and the other variables. -/
theorem C8_handler_panics (mem : Memory) (d s : Option GoString) (r : Request) :
    (handler mem { DELAY := d, STATUS_CODE := some (lit "0"), RESPONSE_SIZE := s } r).status
        = 0 ∧
      (handler mem { DELAY := d, STATUS_CODE := some (lit "0"), RESPONSE_SIZE := s } r).written
        = none ∧
      (handler mem { DELAY := d, STATUS_CODE := some (lit "1000"), RESPONSE_SIZE := s } r).status
        = 1000 ∧
      (handler mem { DELAY := d, STATUS_CODE := some (lit "1000"), RESPONSE_SIZE := s } r).written
        = none ∧
      (handler mem
        { DELAY := d, STATUS_CODE := s, RESPONSE_SIZE := some (lit "9223372036854775807") }
        reqGetRoot).written = none := by
  have h1000 : statusArg
      { DELAY := d, STATUS_CODE := some (lit "1000"), RESPONSE_SIZE := s } = 1000 := by
    have ha : Atoi (lit "1000") = some 1000 := by decide
    have hn : lit "1000" ≠ [] := by decide
    simp [statusArg, Getenv, ha, hn]
  refine ⟨by rw [handler_status, statusArg_zero], ?_, by rw [handler_status, h1000], ?_, ?_⟩
  · exact handler_bad_status mem r (by rw [statusArg_zero]; decide)
  · exact handler_bad_status mem r (by rw [h1000]; decide)
  · rw [handler_written]
    have hA : Atoi (Getenv (some (lit "9223372036854775807"))) = some 9223372036854775807 := by
      decide
    have hlen : ((render reqGetRoot).length : Int) = 32 := by decide
    rw [@padStep_too_large mem
      { DELAY := d, STATUS_CODE := s, RESPONSE_SIZE := some (lit "9223372036854775807") }
      (render reqGetRoot) 9223372036854775807 hA (by rw [hlen]; decide)]
    simp

theorem wrapInt64_of_range {x : Int} (h0 : -(2 ^ 63) ≤ x) (h1 : x ≤ maxInt) :
    wrapInt64 x = x := by
  unfold wrapInt64
  unfold maxInt at h1
  omega

/-- C9 as stated fails: DELAY=9223372036855 parses to a non-negative integer, and the
duration passed to `time.Sleep` is negative, not 9223372036855 ms. -/
theorem C9_counterexample :
    Atoi (lit "9223372036855") = some 9223372036855 ∧
      (handler oneGiB { noEnv with DELAY := some (lit "9223372036855") } reqGetRoot).slept =
        some (-9223372036854551616) ∧
      (handler oneGiB { noEnv with DELAY := some (lit "9223372036855") } reqGetRoot).slept ≠
        some (9223372036855 * 1000000) :=
  ⟨by decide, by decide, by decide⟩

/-- C9, amended: when DELAY parses to d the duration passed to `time.Sleep` is
`d * 1000000` nanoseconds reduced to int64; for `0 ≤ d` with `d * 1000000` at most the
largest int64 (d at most 9223372036854) it is exactly `d * 1000000` nanoseconds, d
milliseconds. DELAY=10 requests 10000000 ns. -/
theorem C9_delay (mem : Memory) (env : Env) (r : Request) (d : Int)
    (hd : Atoi (Getenv env.DELAY) = some d) :
    (handler mem env r).slept = some (wrapInt64 (d * 1000000)) ∧
      (0 ≤ d → d * 1000000 ≤ maxInt → (handler mem env r).slept = some (d * 1000000)) ∧
      (handler mem { noEnv with DELAY := some (lit "10") } reqGetRoot).slept
        = some 10000000 := by
  have hr := Atoi_range hd
  have hne : Getenv env.DELAY ≠ [] := by
    intro h
    rw [h, Atoi_nil] at hd
    cases hd
  have hs : (handler mem env r).slept = some (wrapInt64 (d * 1000000)) := by
    rw [handler_slept]
    simp [sleepArg, hne, hd, wrapInt64_of_range hr.1 hr.2, Millisecond]
  refine ⟨hs, ?_, ?_⟩
  · intro h0 hmax
    rw [hs, wrapInt64_of_range (by omega) hmax]
  · rw [handler_slept]
    decide

/-- C9, at DELAY=10. -/
theorem C9_delay_witness :
    Atoi (Getenv ({ noEnv with DELAY := some (lit "10") } : Env).DELAY) = some 10 ∧
      (handler oneGiB { noEnv with DELAY := some (lit "10") } reqGetRoot).slept =
        some ((10 : Int) * 1000000) :=
  ⟨by decide,
    (C9_delay oneGiB { noEnv with DELAY := some (lit "10") } reqGetRoot 10 (by decide)).2.1
      (by decide) (by decide)⟩

theorem testHandler_written (ParseDuration : GoString → Option Int) (mem : Memory) (env : Env)
    (r : Request) :
    (testHandler ParseDuration mem env r).written =
      if 100 ≤ statusArg env ∧ statusArg env ≤ 999 then padStep mem env (testRender r)
      else none := by
  simp only [testHandler, WriteHeader]
  by_cases h : statusArg env < 100 ∨ statusArg env > 999
  · have h2 : ¬ (100 ≤ statusArg env ∧ statusArg env ≤ 999) := by omega
    simp [h, h2]
  · have h2 : 100 ≤ statusArg env ∧ statusArg env ≤ 999 := by omega
    simp [h, h2]

theorem testHandler_slept (ParseDuration : GoString → Option Int) (mem : Memory) (env : Env)
    (r : Request) :
    (testHandler ParseDuration mem env r).slept = testSleepArg ParseDuration env := by
  simp only [testHandler]
  split <;> rfl

/-- C10 fails on the code: for a request whose header map is visited as `B`, `A`, the
handler of `main` writes the line of `A` first and the handler inlined in
`TestEchoHandler` writes the line of `B` first; and with DELAY=10 the handler of `main`
sleeps 10 ms while the inlined one sleeps what `time.ParseDuration` makes of `10`. -/
theorem C10_handlers_differ (ParseDuration : GoString → Option Int) (mem : Memory) :
    (handler mem noEnv reqTwoHeaders).written =
        some (lit "Method: GET\n\nPath: /\n\nHeaders:\nA: 3\nB: 1, 2\n\n") ∧
      (testHandler ParseDuration mem noEnv reqTwoHeaders).written =
        some (lit "Method: GET\n\nPath: /\n\nHeaders:\nB: 1, 2\nA: 3\n\n") ∧
      testHandler ParseDuration mem noEnv reqTwoHeaders ≠ handler mem noEnv reqTwoHeaders ∧
      (handler mem { noEnv with DELAY := some (lit "10") } reqGetRoot).slept = some 10000000 ∧
      (testHandler ParseDuration mem { noEnv with DELAY := some (lit "10") } reqGetRoot).slept =
        ParseDuration (lit "10") := by
  have h1 : (handler mem noEnv reqTwoHeaders).written =
      some (lit "Method: GET\n\nPath: /\n\nHeaders:\nA: 3\nB: 1, 2\n\n") := by
    rw [handler_unpadded mem reqTwoHeaders (by decide) (padCount_unset _ _ rfl)]
    decide
  have h2 : (testHandler ParseDuration mem noEnv reqTwoHeaders).written =
      some (lit "Method: GET\n\nPath: /\n\nHeaders:\nB: 1, 2\nA: 3\n\n") := by
    rw [testHandler_written, if_pos (by decide),
      padStep_of_padCount_zero mem (padCount_unset _ _ rfl)]
    decide
  refine ⟨h1, h2, ?_, ?_, ?_⟩
  · intro h
    have h3 := congrArg Outcome.written h
    rw [h1, h2] at h3
    exact absurd h3 (by decide)
  · rw [handler_slept]
    decide
  · rw [testHandler_slept]
    have hn : lit "10" ≠ [] := by decide
    simp only [testSleepArg, Getenv, Option.getD_some, ne_eq, hn, not_false_eq_true, if_true]
    cases ParseDuration (lit "10") <;> rfl

end EchoHttp
